import Mathlib

/-!
Verification of the lyra audio-playback engine against its specification.

The definitions below are shallow embeddings of the TypeScript source:
* `StateManager` (src/core/StateManager.ts)
* `PlaybackTimeController` (the clock-anchored time model)
* `PlayerError.fromError` and the `Player.load` catch block (src/core/Player.ts,
  src/types/events.ts)
* `LoaderFactory.detectType` / `createLoader` / `recommendStrategy`
  (src/loaders/LoaderFactory.ts) and the strategy selection in `Player.load`
* `AudioGraph.connectChain` / `setEQEnabled` (the signal chain)
* `Player.dispose` and `Player.setPlaybackRate`

JavaScript numbers are modelled as rationals (`ℚ`); none of the verified code
paths depend on floating-point rounding.  Thrown exceptions are modelled with
`Except`.  Web-Audio node connections are modelled as an edge list with
set semantics (`connect` inserts if absent, `disconnect` removes every
outgoing edge of a node), matching the semantics of `AudioNode.connect` /
`AudioNode.disconnect()`.
-/

namespace Lyra

/-! ## PlayerState and the transition table (src/core/StateManager.ts) -/

inductive PlayerState where
  | idle
  | loading
  | ready
  | playing
  | paused
  | buffering
  | error
  | disposed
  deriving DecidableEq, Repr

open PlayerState

/-- `VALID_TRANSITIONS` from src/core/StateManager.ts lines 3–12. -/
def VALID_TRANSITIONS : PlayerState → List PlayerState
  | .idle => [.loading, .disposed]
  | .loading => [.ready, .error, .idle, .disposed]
  | .ready => [.playing, .loading, .idle, .disposed]
  | .playing => [.paused, .buffering, .ready, .error, .idle, .disposed]
  | .paused => [.playing, .ready, .loading, .idle, .disposed]
  | .buffering => [.playing, .paused, .error, .idle, .disposed]
  | .error => [.loading, .idle, .disposed]
  | .disposed => []

/-- A state-change event `{from, to}` delivered to one listener.
Listeners are identified by a `Nat` id; the JS `Set<StateChangeCallback>`
is modelled as a duplicate-free list of listener ids. -/
structure StateChangeEvent where
  listener : Nat
  src : PlayerState
  dst : PlayerState
  deriving DecidableEq, Repr

/-- The mutable fields of a `StateManager` instance. -/
structure StateManagerState where
  state : PlayerState
  callbacks : List Nat
  deriving DecidableEq, Repr

/-- Result of `StateManager.transition`: the returned boolean, the updated
manager, and the list of listener invocations performed (in order). -/
structure TransitionResult where
  ok : Bool
  sm : StateManagerState
  fired : List StateChangeEvent
  deriving DecidableEq, Repr

/-- `StateManager.transition` (src/core/StateManager.ts lines 30–55):
a self-transition returns `true` without firing callbacks; an edge absent
from `VALID_TRANSITIONS` returns `false` and leaves the state unchanged;
otherwise the state is updated and every registered callback is invoked
once with `{from, to}` (callback exceptions are caught, so invocation of
the remaining callbacks is unconditional). -/
def StateManagerState.transition (s : StateManagerState) (t : PlayerState) :
    TransitionResult :=
  if s.state = t then ⟨true, s, []⟩
  else if t ∈ VALID_TRANSITIONS s.state then
    ⟨true, { s with state := t },
      s.callbacks.map (fun c => ⟨c, s.state, t⟩)⟩
  else ⟨false, s, []⟩

/-- `StateManager.reset` (lines 86–90): force `idle` unless disposed. -/
def StateManagerState.reset (s : StateManagerState) : TransitionResult :=
  if s.state ≠ .disposed then s.transition .idle else ⟨true, s, []⟩

/-- `StateManager.dispose` (lines 92–95): transition to `disposed`
(unconditionally attempted) and clear the callback set. -/
def StateManagerState.smDispose (s : StateManagerState) : TransitionResult :=
  let r := s.transition .disposed
  ⟨r.ok, { r.sm with callbacks := [] }, r.fired⟩

/-! ## Claim C1 -/

/-- **C1.** For every pair of states: a `to` listed as a successor of the
current state in `VALID_TRANSITIONS` makes `transition` succeed, set the
current state to `to`, and invoke every registered listener exactly once
with `{from, to}`; a `to` not listed and different from the current state
makes it fail with the state unchanged; and `to` equal to the current
state is a success that changes nothing and fires nothing. -/
theorem stateManager_transition_spec (s : StateManagerState)
    (t : PlayerState) (hnd : s.callbacks.Nodup) :
    (s.state ≠ t → t ∈ VALID_TRANSITIONS s.state →
      (s.transition t).ok = true ∧
      (s.transition t).sm.state = t ∧
      (s.transition t).fired =
        s.callbacks.map (fun c => ⟨c, s.state, t⟩) ∧
      ∀ c ∈ s.callbacks,
        ((s.transition t).fired.count ⟨c, s.state, t⟩) = 1) ∧
    (s.state ≠ t → t ∉ VALID_TRANSITIONS s.state →
      (s.transition t).ok = false ∧ (s.transition t).sm = s ∧
      (s.transition t).fired = []) ∧
    (s.state = t →
      (s.transition t).ok = true ∧ (s.transition t).sm = s ∧
      (s.transition t).fired = []) := by
  unfold StateManagerState.transition
  refine ⟨fun hne hmem => ?_, fun hne hnmem => ?_, fun heq => ?_⟩
  · simp only [if_neg hne, if_pos hmem]
    refine ⟨by simp, by simp, by simp, fun c hc => ?_⟩
    have hinj : Function.Injective
        (fun c : Nat => (⟨c, s.state, t⟩ : StateChangeEvent)) := by
      intro a b hab
      simpa using congrArg StateChangeEvent.listener hab
    have hrw : (⟨c, s.state, t⟩ : StateChangeEvent) =
        (fun x : Nat => (⟨x, s.state, t⟩ : StateChangeEvent)) c := rfl
    rw [hrw, List.count_map_of_injective _ _ hinj]
    exact List.count_eq_one_of_mem hnd hc
  · simp [if_neg hne, if_neg hnmem]
  · simp [if_pos heq]

/-- Witness for C1 at a concrete manager: state `ready`, listeners `[0,1]`,
transitioning to `playing` (a listed edge). -/
theorem stateManager_transition_spec_witness :
    (StateManagerState.transition ⟨.ready, [0, 1]⟩ .playing).ok = true ∧
    (StateManagerState.transition ⟨.ready, [0, 1]⟩ .playing).sm.state = .playing ∧
    ((StateManagerState.transition ⟨.ready, [0, 1]⟩ .playing).fired.count
      ⟨0, .ready, .playing⟩) = 1 := by
  have h := stateManager_transition_spec ⟨.ready, [0, 1]⟩ .playing (by decide)
  obtain ⟨h1, -, -⟩ := h
  obtain ⟨hok, hst, -, hcount⟩ := h1 (by decide) (by decide)
  exact ⟨hok, hst, hcount 0 (by decide)⟩

/-! ## PlaybackTimeController (the clock-anchored time model)

JS numbers are modelled as `ℚ`.  `_startCtxTime == 0` is the sentinel for
"not anchored" (the JS guard is `if (!this._startCtxTime)`).  The JS `%`
operator truncates toward zero, which `jsMod` reproduces exactly. -/

/-- Truncation toward zero, as performed by the JS `%` operator. -/
def jsTrunc (q : ℚ) : ℤ := if 0 ≤ q then ⌊q⌋ else ⌈q⌉

/-- The JS remainder `a % b`: `a - b * trunc (a / b)`. -/
def jsMod (a b : ℚ) : ℚ := a - b * jsTrunc (a / b)

/-- The mutable fields of `PlaybackTimeController`; the `getDuration`
closure is modelled by passing the duration to each method that reads it. -/
structure PlaybackTimeController where
  startCtxTime : ℚ
  basePosition : ℚ
  rate : ℚ
  loop : Bool
  deriving DecidableEq, Repr

namespace PlaybackTimeController

/-- Field initializers of the class. -/
def init : PlaybackTimeController := ⟨0, 0, 1, false⟩

/-- `compute(ctxTime)`: unanchored returns the base; anchored adds the
rate-scaled elapsed clock time, then wraps with `%` when looping with a
positive duration, else takes `Math.min` with a positive duration, else
returns the raw value. -/
def compute (tc : PlaybackTimeController) (dur ctxTime : ℚ) : ℚ :=
  if tc.startCtxTime = 0 then tc.basePosition
  else
    let elapsedReal := ctxTime - tc.startCtxTime
    let elapsedTrack := elapsedReal * tc.rate
    let time := tc.basePosition + elapsedTrack
    if tc.loop ∧ 0 < dur then jsMod time dur
    else if 0 < dur then min time dur
    else time

/-- `onStart(position)`: clamp the base below by 0 and clear the anchor. -/
def onStart (tc : PlaybackTimeController) (position : ℚ) :
    PlaybackTimeController :=
  { tc with basePosition := max 0 position, startCtxTime := 0 }

/-- `setStartCtxTime(ctxTime)` — the anchor setter. -/
def setStartCtxTime (tc : PlaybackTimeController) (ctxTime : ℚ) :
    PlaybackTimeController :=
  { tc with startCtxTime := ctxTime }

/-- `pauseAt(ctxTime)`: freeze the current position as the new base and
clear the anchor; returns the frozen position. -/
def pauseAt (tc : PlaybackTimeController) (dur ctxTime : ℚ) :
    PlaybackTimeController × ℚ :=
  let pos := tc.compute dur ctxTime
  ({ tc with basePosition := max 0 pos, startCtxTime := 0 }, max 0 pos)

/-- `setRate(rate)`: throws `RangeError` for a negative rate before any
assignment (so the instance is unchanged), else stores the rate.  The
result pairs the instance after the call with the thrown-or-not outcome. -/
def setRateRun (tc : PlaybackTimeController) (rate : ℚ) :
    PlaybackTimeController × Except String Unit :=
  if rate < 0 then (tc, .error "RangeError: Playback rate must be positive")
  else ({ tc with rate := rate }, .ok ())

/-- `setRatePlaying(ctxTime, newRate)`: throws for a negative rate; else
computes the current position first, then stores the new rate, installs
`max 0 position` as the new base, and re-anchors at `ctxTime`. -/
def setRatePlayingRun (tc : PlaybackTimeController)
    (dur ctxTime newRate : ℚ) :
    PlaybackTimeController × Except String Unit :=
  if newRate < 0 then (tc, .error "RangeError: Playback rate must be positive")
  else
    let currentPos := tc.compute dur ctxTime
    let tc2 := { tc with rate := newRate, basePosition := max 0 currentPos, startCtxTime := ctxTime }
    (tc2, .ok ())

/-- `seek(seconds)`: clamp into `[0, duration]` (with `getDuration() || 0`
collapsing a non-positive duration to 0) and clear the anchor. -/
def seek (tc : PlaybackTimeController) (dur seconds : ℚ) :
    PlaybackTimeController :=
  let d := if dur = 0 then 0 else dur
  { tc with basePosition := max 0 (min seconds d), startCtxTime := 0 }

end PlaybackTimeController

/-- The position formula claimed in the specification for `compute`:
identical to the code except that the non-looping branch clamps to the
full interval `[0, duration]`. -/
def computeClaimed (tc : PlaybackTimeController) (dur ctxTime : ℚ) : ℚ :=
  if tc.startCtxTime = 0 then tc.basePosition
  else
    let pos := tc.basePosition + (ctxTime - tc.startCtxTime) * tc.rate
    if tc.loop ∧ 0 < dur then jsMod pos dur
    else max 0 (min pos dur)

/-- The amended position formula: anchored position
`base + (t − anchor) · rate`, wrapped with the JS modulo when looping with
positive duration, clamped **above** by the duration when the duration is
positive (never clamped below), and returned raw when the duration is not
positive. -/
def computeAmendedSpec (tc : PlaybackTimeController) (dur ctxTime : ℚ) : ℚ :=
  if tc.startCtxTime = 0 then tc.basePosition
  else
    let pos := tc.basePosition + (ctxTime - tc.startCtxTime) * tc.rate
    if tc.loop ∧ 0 < dur then jsMod pos dur
    else if 0 < dur then min pos dur
    else pos

/-! ## Claim C2 (corrected) -/

/-- **C2 counterexample.** After `onStart(0); setStartCtxTime(10)` with
rate 1, no loop, duration 20, the code's `compute(5)` returns `-5`, while
the claimed clamp to `[0, 20]` would return `0`: `compute` never clamps
below zero. -/
theorem compute_no_lower_clamp_counterexample :
    ((PlaybackTimeController.init.onStart 0).setStartCtxTime 10).compute
        20 5 = -5 ∧
    computeClaimed
        ((PlaybackTimeController.init.onStart 0).setStartCtxTime 10) 20 5
      = 0 ∧
    ((PlaybackTimeController.init.onStart 0).setStartCtxTime 10).compute
        20 5 ≠
      computeClaimed
        ((PlaybackTimeController.init.onStart 0).setStartCtxTime 10) 20 5 := by
  refine ⟨?_, ?_, ?_⟩ <;>
    norm_num [PlaybackTimeController.compute, computeClaimed,
      PlaybackTimeController.init, PlaybackTimeController.onStart,
      PlaybackTimeController.setStartCtxTime, jsMod, jsTrunc]

/-- **C2 (amended).** For every clock time: if unanchored, `compute`
returns the base position; if anchored, it returns
`basePosition + (t − anchorClockTime) · rate`, wrapped with the JS modulo
when looping with positive duration, clamped above by the duration when
the duration is positive (values below zero are returned unclamped), and
returned unclamped when the duration is not positive.  In particular,
after `onStart(5); setStartCtxTime(10)`, `compute(12)` with rate 1, no
loop and duration 20 returns 7, and with loop enabled and duration 6
returns 1. -/
theorem compute_amended_spec :
    (∀ (tc : PlaybackTimeController) (dur t : ℚ),
      tc.compute dur t = computeAmendedSpec tc dur t) ∧
    ((PlaybackTimeController.init.onStart 5).setStartCtxTime 10).compute
        20 12 = 7 ∧
    ({ (PlaybackTimeController.init.onStart 5).setStartCtxTime 10 with
        loop := true } : PlaybackTimeController).compute 6 12 = 1 := by
  refine ⟨fun tc dur t => rfl, ?_, ?_⟩ <;>
    norm_num [PlaybackTimeController.compute,
      PlaybackTimeController.init, PlaybackTimeController.onStart,
      PlaybackTimeController.setStartCtxTime, jsMod, jsTrunc]

/-! ## Claim C3 -/

/-- **C3.** `setRatePlaying` at clock `t0` computes the current position
at the old rate, installs it as the new base position, re-anchors at `t0`,
and applies the new rate, so the position is continuous at the change:
concretely, a controller that is at position 4 at `t0 = 5` with rate 1
moves to position 6 at `t0 + 1` after switching to rate 2. -/
theorem setRatePlaying_spec (tc : PlaybackTimeController)
    (dur t0 r : ℚ) (hr : 0 ≤ r) (hpos : 0 ≤ tc.compute dur t0) :
    tc.setRatePlayingRun dur t0 r =
      (⟨t0, tc.compute dur t0, r, tc.loop⟩, .ok ()) ∧
    (PlaybackTimeController.mk 3 2 1 false).compute 20 5 = 4 ∧
    (PlaybackTimeController.mk 3 2 1 false).setRatePlayingRun 20 5 2 =
      (⟨5, 4, 2, false⟩, .ok ()) ∧
    (PlaybackTimeController.mk 5 4 2 false).compute 20 6 = 6 := by
  refine ⟨?_, ?_, ?_, ?_⟩
  · rw [PlaybackTimeController.setRatePlayingRun, if_neg (not_lt.2 hr)]
    simp only [Prod.mk.injEq, and_true]
    have : max 0 (tc.compute dur t0) = tc.compute dur t0 := max_eq_right hpos
    simp [this]
  all_goals
    norm_num [PlaybackTimeController.compute,
      PlaybackTimeController.setRatePlayingRun, jsMod, jsTrunc]

/-- Witness for C3: the concrete controller of the continuity example. -/
theorem setRatePlaying_spec_witness :
    (PlaybackTimeController.mk 3 2 1 false).setRatePlayingRun 20 5 2 =
      (⟨5, 4, 2, false⟩, .ok ()) := by
  have h := setRatePlaying_spec (PlaybackTimeController.mk 3 2 1 false)
    20 5 2 (by norm_num)
    (by norm_num [PlaybackTimeController.compute, jsMod, jsTrunc])
  exact h.2.2.1

/-! ## Claim C7 -/

/-- **C7.** `setRate(r)` with `r < 0` throws a `RangeError` before any
assignment, leaving the whole controller unchanged; with `r ≥ 0` it
succeeds and stores exactly `r`, changing nothing else. -/
theorem setRate_spec (tc : PlaybackTimeController) (r : ℚ) :
    (r < 0 → tc.setRateRun r =
      (tc, .error "RangeError: Playback rate must be positive")) ∧
    (0 ≤ r → tc.setRateRun r = ({ tc with rate := r }, .ok ())) := by
  constructor
  · intro h
    rw [PlaybackTimeController.setRateRun, if_pos h]
  · intro h
    rw [PlaybackTimeController.setRateRun, if_neg (not_lt.2 h)]

/-- Witness for C7: rejection at `-1` and acceptance at `3/2`. -/
theorem setRate_spec_witness :
    PlaybackTimeController.init.setRateRun (-1) =
      (PlaybackTimeController.init,
        .error "RangeError: Playback rate must be positive") ∧
    PlaybackTimeController.init.setRateRun (3/2) =
      ({ PlaybackTimeController.init with rate := 3/2 }, .ok ()) :=
  ⟨(setRate_spec PlaybackTimeController.init (-1)).1 (by norm_num),
   (setRate_spec PlaybackTimeController.init (3/2)).2 (by norm_num)⟩

/-! ## Errors (src/types/events.ts) and the `Player.load` catch block -/

/-- `PlayerErrorCode` (src/types/events.ts lines 64–82). -/
inductive PlayerErrorCode where
  | LOAD_ABORTED
  | LOAD_NETWORK
  | LOAD_DECODE
  | LOAD_NOT_SUPPORTED
  | PLAYBACK_NOT_ALLOWED
  | PLAYBACK_FAILED
  | HLS_FATAL
  | HLS_NETWORK
  | HLS_MEDIA
  | UNKNOWN
  deriving DecidableEq, Repr

/-- A thrown JavaScript value, as far as `PlayerError.fromError` and the
`load` catch block inspect it.  `cancellation` is a `CancellationError`
(src/core/types.ts), `domException` a `DOMException` with its `name`,
`player` a `PlayerError`; `jsErrorObj` any other `Error`; `str` a thrown
string; `objWithMessage` a non-`Error` object with a `message` property;
`other` anything else, carried by its string/JSON rendering. -/
inductive JsError where
  | cancellation (message : String)
  | domException (name message : String)
  | player (message : String) (code : PlayerErrorCode)
  | playerCaused (message : String) (code : PlayerErrorCode) (cause : JsError)
  | jsErrorObj (message : String)
  | str (s : String)
  | objWithMessage (message : String)
  | other (text : String)
  deriving DecidableEq, Repr

/-- The normalized `PlayerError` shape `{message, code, cause}`. -/
structure PlayerError where
  message : String
  code : PlayerErrorCode
  cause : Option JsError
  deriving DecidableEq, Repr

/-- The message-extraction cascade of `PlayerError.fromError`:
`error instanceof Error` uses `error.message`; a string is used verbatim;
an object with a `message` property uses `String(message)`; anything else
falls back to its JSON/string rendering (initialised to "Unknown Error"). -/
def jsErrorMessage : JsError → String
  | .cancellation m => m
  | .domException _ m => m
  | .player m _ => m
  | .playerCaused m _ _ => m
  | .jsErrorObj m => m
  | .str s => s
  | .objWithMessage m => m
  | .other t => t

/-- `PlayerError.fromError` (src/types/events.ts lines 97–133):
a `PlayerError` is returned as-is; a `DOMException` named `AbortError` or
with message `Aborted` becomes `LOAD_ABORTED`; everything else is wrapped
with the extracted message, the supplied code (defaulting to `UNKNOWN`),
and the original value as `cause`. -/
def PlayerError.fromError (error : JsError) (code : Option PlayerErrorCode) :
    PlayerError :=
  match error with
  | .player m c => ⟨m, c, none⟩
  | .playerCaused m c cause => ⟨m, c, some cause⟩
  | .domException name msg =>
      if name = "AbortError" ∨ msg = "Aborted" then
        ⟨"Loading aborted", .LOAD_ABORTED, some error⟩
      else ⟨jsErrorMessage error, code.getD .UNKNOWN, some error⟩
  | e => ⟨jsErrorMessage e, code.getD .UNKNOWN, some e⟩

/-- The condition of the `load` catch block's early return
(src/core/Player.ts lines 228–234): `err instanceof CancellationError`,
or `err instanceof DOMException && err.name === "AbortError"`. -/
def isCancellationOutcome : JsError → Bool
  | .cancellation _ => true
  | .domException name _ => name = "AbortError"
  | _ => false

/-- The `error` event payload `{code, message, cause}`. -/
structure ErrorPayload where
  code : PlayerErrorCode
  message : String
  cause : Option JsError
  deriving DecidableEq, Repr

/-- Outcome of running the `load` catch block: the state manager after
the transition, the `error` events emitted, and the value re-thrown. -/
structure LoadCatchResult where
  sm : StateManagerState
  errorEvents : List ErrorPayload
  thrown : Option PlayerError
  deriving DecidableEq, Repr

/-- The catch block of `Player.load` (src/core/Player.ts lines 227–248):
a cancellation outcome transitions to `idle` and returns; any other
failure transitions to `error`, normalizes the fault with
`PlayerError.fromError(err, LOAD_DECODE)`, emits one `error` event with
the normalized `{code, message, cause}`, and re-throws the normalized
error. -/
def loadCatch (sm : StateManagerState) (err : JsError) : LoadCatchResult :=
  if isCancellationOutcome err then
    ⟨(sm.transition .idle).sm, [], none⟩
  else
    let sm2 := (sm.transition .error).sm
    let pe := PlayerError.fromError err (some .LOAD_DECODE)
    ⟨sm2, [⟨pe.code, pe.message, pe.cause⟩], some pe⟩

/-! ## Claim C4 -/

/-- **C4.** In state `loading`, a load failure that is a
cancellation/abort outcome sends the player to `idle` with no `error`
event and nothing re-thrown; any other load failure sends it to `error`,
emits exactly one `error` event carrying the normalized
`{code, message, cause}` of `PlayerError.fromError(err, LOAD_DECODE)`,
and re-throws that normalized error. -/
theorem load_catch_spec (sm : StateManagerState) (err : JsError)
    (hload : sm.state = .loading) :
    (isCancellationOutcome err = true →
      (loadCatch sm err).sm.state = .idle ∧
      (loadCatch sm err).errorEvents = [] ∧
      (loadCatch sm err).thrown = none) ∧
    (isCancellationOutcome err = false →
      (loadCatch sm err).sm.state = .error ∧
      (loadCatch sm err).errorEvents =
        [⟨(PlayerError.fromError err (some .LOAD_DECODE)).code,
          (PlayerError.fromError err (some .LOAD_DECODE)).message,
          (PlayerError.fromError err (some .LOAD_DECODE)).cause⟩] ∧
      (loadCatch sm err).thrown =
        some (PlayerError.fromError err (some .LOAD_DECODE))) := by
  constructor
  · intro hc
    refine ⟨?_, by simp [loadCatch, hc], by simp [loadCatch, hc]⟩
    simp [loadCatch, hc, StateManagerState.transition, hload,
      VALID_TRANSITIONS]
  · intro hc
    refine ⟨?_, by simp [loadCatch, hc], by simp [loadCatch, hc]⟩
    simp [loadCatch, hc, StateManagerState.transition, hload,
      VALID_TRANSITIONS]

/-- Witness for C4: a cancellation and a decode fault in state `loading`
with one registered listener. -/
theorem load_catch_spec_witness :
    (loadCatch ⟨.loading, [0]⟩ (.cancellation "cancelled")).sm.state =
      .idle ∧
    (loadCatch ⟨.loading, [0]⟩ (.cancellation "cancelled")).thrown = none ∧
    (loadCatch ⟨.loading, [0]⟩ (.jsErrorObj "bad data")).sm.state = .error ∧
    (loadCatch ⟨.loading, [0]⟩ (.jsErrorObj "bad data")).thrown =
      some ⟨"bad data", .LOAD_DECODE, some (.jsErrorObj "bad data")⟩ := by
  have h1 := load_catch_spec ⟨.loading, [0]⟩ (.cancellation "cancelled") rfl
  have h2 := load_catch_spec ⟨.loading, [0]⟩ (.jsErrorObj "bad data") rfl
  obtain ⟨ha, -, hb⟩ := h1.1 (by decide)
  obtain ⟨hc, -, hd⟩ := h2.2 (by decide)
  exact ⟨ha, hb, hc, hd⟩

/-! ## Source descriptors and the LoaderFactory (src/loaders/LoaderFactory.ts) -/

/-- `AudioFormat` (src/types/index.ts). -/
inductive AudioFormat where
  | mp3 | wav | ogg | aac | flac | opus | m4a | webm | m3u8 | mpd
  deriving DecidableEq, Repr

/-- `AudioSourceType` (src/types/index.ts). -/
inductive AudioSourceType where
  | native | hls | mediabunny | buffer | dash
  deriving DecidableEq, Repr

/-- The runtime type of `AudioSource.data`. -/
inductive RawData where
  | audioBuffer | uint8Array | arrayBuffer | file | blob | readableStream
  deriving DecidableEq, Repr

/-- `AudioSource` (src/types/index.ts); `headers` is never read by the
detection/selection code and is omitted. -/
structure AudioSource where
  url : Option String
  data : Option RawData
  format : Option AudioFormat
  type : Option AudioSourceType
  deriving DecidableEq, Repr

/-- `needle` is a prefix of `hay` (over character lists). -/
def listStartsWith : List Char → List Char → Bool
  | _, [] => true
  | [], _ :: _ => false
  | a :: as, b :: bs => a = b && listStartsWith as bs

/-- `needle` occurs somewhere in `hay` (over character lists). -/
def listOccurs : List Char → List Char → Bool
  | [], need => listStartsWith [] need
  | a :: as, need => listStartsWith (a :: as) need || listOccurs as need

/-- JS `String.prototype.includes`. -/
def jsIncludes (s sub : String) : Bool := listOccurs s.data sub.data

/-- ASCII lowercasing of one character (all URLs and hints checked by the
factory are ASCII). -/
def jsCharToLower (c : Char) : Char :=
  if 65 ≤ c.toNat ∧ c.toNat ≤ 90 then Char.ofNat (c.toNat + 32) else c

/-- JS `String.prototype.toLowerCase` on ASCII strings. -/
def jsToLower (s : String) : String := ⟨s.data.map jsCharToLower⟩

/-- The runtime-type arm of `detectType` (lines 52–70): byte buffers map
to `buffer`, file-like blobs and byte streams map to `mediabunny`, and an
absent `data` falls through to the `native` default. -/
def detectTypeFromData (src : AudioSource) : AudioSourceType :=
  match src.data with
  | some .audioBuffer | some .uint8Array | some .arrayBuffer => .buffer
  | some .file | some .blob | some .readableStream => .mediabunny
  | none => .native

/-- `LoaderFactory.detectType` (lines 23–71).  An explicit `type` wins;
else a truthy `url` is lowercased and checked for `.m3u8`/format `m3u8`
(`hls`), then `.mpd`/format `mpd` (`dash`), and otherwise yields `native`
(the native-extension list and the fallthrough both return `native`);
else the runtime type of `data` decides; else `native`. -/
def detectType (src : AudioSource) : AudioSourceType :=
  match src.type with
  | some t => t
  | none =>
    match src.url with
    | some u =>
      if u ≠ "" then
        let url := jsToLower u
        if jsIncludes url ".m3u8" || src.format = some .m3u8 then .hls
        else if jsIncludes url ".mpd" || src.format = some .mpd then .dash
        else .native
      else detectTypeFromData src
    | none => detectTypeFromData src

/-- The four loader classes. -/
inductive LoaderId where
  | native | hls | mediabunny | buffer
  deriving DecidableEq, Repr

/-- The two backend strategies. -/
inductive StrategyKind where
  | html5 | webaudio
  deriving DecidableEq, Repr

/-- `source.data instanceof File || source.data instanceof Blob`. -/
def isFileOrBlob : Option RawData → Bool
  | some .file => true
  | some .blob => true
  | _ => false

/-- `LoaderFactory.createLoader` (lines 73–113): the `mediabunny` kind
with preferred mode `html5` and file-like data is served by the native
loader; `dash` throws `LOAD_NOT_SUPPORTED`; every other kind maps to its
loader. -/
def createLoader (src : AudioSource) (preferredMode : Option StrategyKind) :
    Except PlayerError LoaderId :=
  let type := detectType src
  if type = .mediabunny ∧ preferredMode = some .html5 ∧
      isFileOrBlob src.data then .ok .native
  else
    match type with
    | .hls => .ok .hls
    | .native => .ok .native
    | .mediabunny => .ok .mediabunny
    | .buffer => .ok .buffer
    | .dash => .error ⟨"DASH not yet supported", .LOAD_NOT_SUPPORTED, none⟩

/-- Truthiness of `source.url`. -/
def urlTruthy (src : AudioSource) : Bool :=
  match src.url with
  | some u => u ≠ ""
  | none => false

/-- `LoaderFactory.recommendStrategy` (lines 115–127). -/
def recommendStrategy (src : AudioSource) : StrategyKind :=
  let type := detectType src
  if type = .hls ∨ type = .dash then .html5
  else if urlTruthy src ∧ type = .native then .html5
  else .webaudio

/-- The `.m3u8`-suffix-or-format hint checked first by `detectType`. -/
def hlsHint (src : AudioSource) : Bool :=
  jsIncludes (jsToLower (src.url.getD "")) ".m3u8" || src.format = some .m3u8

/-- The `.mpd`-suffix-or-format hint checked second by `detectType`. -/
def dashHint (src : AudioSource) : Bool :=
  jsIncludes (jsToLower (src.url.getD "")) ".mpd" || src.format = some .mpd

/-- `data` holds a byte buffer (`AudioBuffer`/`Uint8Array`/`ArrayBuffer`). -/
def isByteBuffer : Option RawData → Bool
  | some .audioBuffer => true
  | some .uint8Array => true
  | some .arrayBuffer => true
  | _ => false

/-- `data` holds a file-like blob or byte stream. -/
def isStreamLike : Option RawData → Bool
  | some .file => true
  | some .blob => true
  | some .readableStream => true
  | _ => false

/-! ## Claim C5 -/

/-- **C5.**  Type detection precedence: an explicit `type` is returned
as-is; else with a (truthy) URL the `.m3u8`/`m3u8` hint gives `hls`, then
the `.mpd`/`mpd` hint gives `dash`, and any other URL gives `native`;
else the runtime type of `data` decides (byte buffers give `buffer`,
file-like blobs and byte streams give `mediabunny`); an unresolvable
descriptor defaults to `native`; and `createLoader` fails — with
`LOAD_NOT_SUPPORTED` — exactly on the `dash` kind. -/
theorem detectType_precedence_spec (src : AudioSource) :
    (∀ t, src.type = some t → detectType src = t) ∧
    (src.type = none → urlTruthy src = true →
      (hlsHint src = true → detectType src = .hls) ∧
      (hlsHint src = false → dashHint src = true → detectType src = .dash) ∧
      (hlsHint src = false → dashHint src = false →
        detectType src = .native)) ∧
    (src.type = none → urlTruthy src = false →
      (isByteBuffer src.data = true → detectType src = .buffer) ∧
      (isStreamLike src.data = true → detectType src = .mediabunny)) ∧
    (src.type = none → urlTruthy src = false → src.data = none →
      detectType src = .native) ∧
    (∀ m, (detectType src = .dash →
        createLoader src m =
          .error ⟨"DASH not yet supported", .LOAD_NOT_SUPPORTED, none⟩) ∧
      (detectType src ≠ .dash → ∃ l, createLoader src m = .ok l)) := by
  refine ⟨?_, ?_, ?_, ?_, ?_⟩
  · intro t ht
    simp [detectType, ht]
  · intro htype hurl
    match hu : src.url with
    | none => simp [urlTruthy, hu] at hurl
    | some u =>
      have hne : u ≠ "" := by
        by_contra h
        simp [urlTruthy, hu, h] at hurl
      have hget : src.url.getD "" = u := by simp [hu]
      refine ⟨fun hh => ?_, fun hh hd => ?_, fun hh hd => ?_⟩ <;>
        simp only [detectType, htype, hu, if_pos hne] <;>
        simp only [hlsHint, hget] at hh <;>
        try simp only [dashHint, hget] at hd
      · simp [hh]
      · simp [hh, hd]
      · simp [hh, hd]
  · intro htype hurl
    have hurl2 : detectType src = detectTypeFromData src := by
      match hu : src.url with
      | none => simp [detectType, htype, hu]
      | some u =>
        have : u = "" := by
          by_contra h
          simp [urlTruthy, hu, h] at hurl
        simp [detectType, htype, hu, this]
    constructor
    · intro hb
      rw [hurl2]
      match hd : src.data with
      | some .audioBuffer | some .uint8Array | some .arrayBuffer =>
          simp [detectTypeFromData, hd]
      | some .file | some .blob | some .readableStream =>
          simp [isByteBuffer, hd] at hb
      | none => simp [isByteBuffer, hd] at hb
    · intro hs
      rw [hurl2]
      match hd : src.data with
      | some .file | some .blob | some .readableStream =>
          simp [detectTypeFromData, hd]
      | some .audioBuffer | some .uint8Array | some .arrayBuffer =>
          simp [isStreamLike, hd] at hs
      | none => simp [isStreamLike, hd] at hs
  · intro htype hurl hdata
    match hu : src.url with
    | none => simp [detectType, htype, hu, detectTypeFromData, hdata]
    | some u =>
      have : u = "" := by
        by_contra h
        simp [urlTruthy, hu, h] at hurl
      simp [detectType, htype, hu, this, detectTypeFromData, hdata]
  · intro m
    constructor
    · intro hd
      have hnb : ¬(detectType src = .mediabunny ∧ m = some .html5 ∧
          isFileOrBlob src.data = true) := by
        rintro ⟨h1, -, -⟩
        rw [hd] at h1
        exact absurd h1 (by decide)
      simp only [createLoader]
      rw [if_neg (by simpa using hnb), hd]
    · intro hd
      simp only [createLoader]
      by_cases hb : detectType src = .mediabunny ∧ m = some .html5 ∧
          isFileOrBlob src.data = true
      · rw [if_pos (by simpa using hb)]
        exact ⟨.native, rfl⟩
      · rw [if_neg (by simpa using hb)]
        match ht : detectType src with
        | .hls => exact ⟨.hls, rfl⟩
        | .native => exact ⟨.native, rfl⟩
        | .mediabunny => exact ⟨.mediabunny, rfl⟩
        | .buffer => exact ⟨.buffer, rfl⟩
        | .dash => exact absurd ht hd

/-- Witness for C5: a `.m3u8` URL detects as `hls`; a raw byte buffer
detects as `buffer`; an empty descriptor defaults to `native`; a `.mpd`
URL makes `createLoader` fail. -/
theorem detectType_precedence_spec_witness :
    detectType ⟨some "https://cdn.example/live.m3u8", none, none, none⟩ =
      .hls ∧
    detectType ⟨none, some .uint8Array, none, none⟩ = .buffer ∧
    detectType ⟨none, none, none, none⟩ = .native ∧
    createLoader ⟨some "https://cdn.example/vod.mpd", none, none, none⟩
        none =
      .error ⟨"DASH not yet supported", .LOAD_NOT_SUPPORTED, none⟩ := by
  have h1 := detectType_precedence_spec
    ⟨some "https://cdn.example/live.m3u8", none, none, none⟩
  have h2 := detectType_precedence_spec
    ⟨none, some .uint8Array, none, none⟩
  have h3 := detectType_precedence_spec ⟨none, none, none, none⟩
  have h4 := detectType_precedence_spec
    ⟨some "https://cdn.example/vod.mpd", none, none, none⟩
  refine ⟨(h1.2.1 rfl (by decide)).1 (by decide),
    (h2.2.2.1 rfl (by decide)).1 (by decide),
    h3.2.2.2.1 rfl (by decide) rfl, (h4.2.2.2.2 none).1 ?_⟩
  exact (h4.2.1 rfl (by decide)).2.1 (by decide) (by decide)

/-! ## Claim C6 -/

/-- `PlaybackMode` (src/types/index.ts). -/
inductive PlaybackMode where
  | html5 | webaudio | auto
  deriving DecidableEq, Repr

/-- The strategy pinned by a non-`auto` mode. -/
def PlaybackMode.pinned : PlaybackMode → Option StrategyKind
  | .html5 => some .html5
  | .webaudio => some .webaudio
  | .auto => none

/-- The loader/strategy selection in `Player.load`
(src/core/Player.ts lines 140–172): `preferredMode` is the non-`auto`
mode; the loader comes from `createLoader`; `determineStrategy` returns
the pinned mode or the factory recommendation; a native loader over
file-like data with preferred mode `html5` keeps `html5`; finally a
`mediabunny` or `buffer` loader forces `webaudio`. -/
instance {ε α : Type} [DecidableEq ε] [DecidableEq α] :
    DecidableEq (Except ε α) := fun x y =>
  match x, y with
  | .ok a, .ok b =>
      if h : a = b then .isTrue (by rw [h]) else
        .isFalse (by intro hxy; exact h (Except.ok.inj hxy))
  | .error a, .error b =>
      if h : a = b then .isTrue (by rw [h]) else
        .isFalse (by intro hxy; exact h (Except.error.inj hxy))
  | .ok _, .error _ => .isFalse (by intro hxy; exact Except.noConfusion hxy)
  | .error _, .ok _ => .isFalse (by intro hxy; exact Except.noConfusion hxy)

def selectLoaderAndStrategy (src : AudioSource) (mode : PlaybackMode) :
    Except PlayerError (LoaderId × StrategyKind) :=
  match createLoader src mode.pinned with
  | .error e => .error e
  | .ok loader =>
    let s0 := match mode.pinned with
      | some s => s
      | none => recommendStrategy src
    let s1 := if loader = .native ∧ isFileOrBlob src.data ∧
        mode.pinned = some .html5 then .html5 else s0
    let s2 := if loader = .mediabunny ∨ loader = .buffer then
        StrategyKind.webaudio else s1
    .ok (loader, s2)

/-- **C6.** Whenever the loader chosen for a load is the stream-decode
(`mediabunny`) or `buffer` loader — the loaders whose output is a decoded
PCM buffer — the selected backend strategy is `webaudio`, regardless of
the caller-selected mode or the factory recommendation. -/
theorem bufferLoader_forces_webaudio (src : AudioSource)
    (mode : PlaybackMode) (loader : LoaderId) (strat : StrategyKind)
    (h : selectLoaderAndStrategy src mode = .ok (loader, strat))
    (hl : loader = .mediabunny ∨ loader = .buffer) :
    strat = .webaudio := by
  match hcl : createLoader src mode.pinned with
  | .error e =>
    rw [selectLoaderAndStrategy, hcl] at h
    exact absurd h (by simp)
  | .ok l =>
    rw [selectLoaderAndStrategy, hcl] at h
    simp only [Except.ok.injEq, Prod.mk.injEq] at h
    obtain ⟨hl2, hs⟩ := h
    subst hl2
    rcases hl with hm | hm <;> subst hm <;> simpa using hs.symm

/-- Witness for C6: a raw byte buffer loaded with caller mode `html5`
still runs on the `webaudio` strategy. -/
theorem bufferLoader_forces_webaudio_witness :
    selectLoaderAndStrategy ⟨none, some .uint8Array, none, none⟩ .html5 =
      .ok (.buffer, .webaudio) ∧
    StrategyKind.webaudio = .webaudio := by
  constructor
  · decide
  · exact bufferLoader_forces_webaudio
      ⟨none, some .uint8Array, none, none⟩ .html5 .buffer .webaudio
      (by decide) (Or.inr rfl)

/-! ## Player transport surface (src/core/Player.ts) -/

/-- The `PlaybackRate` branded-type constructor (src/types/branded.ts):
it passes any value through unchecked. -/
def PlaybackRate (value : ℚ) : ℚ := value

/-- The `Player` events relevant to disposal and rate changes. -/
inductive PlayerEvent where
  | statechange (src dst : PlayerState)
  | ratechange (rate : ℚ)
  | disposeEvent
  deriving DecidableEq, Repr

/-- The `Player` fields read or written by `setPlaybackRate` and
`dispose`: the state manager, the stored `_playbackRate`, and the rate
held by the active strategy (`none` when `_currentStrategy` is null). -/
structure PlayerModel where
  sm : StateManagerState
  playbackRate : ℚ
  strategyRate : Option ℚ
  deriving DecidableEq, Repr

/-- `Player.setPlaybackRate` (src/core/Player.ts lines 352–356): store
`PlaybackRate(rate)`, forward it to the active strategy when one exists
(`this._currentStrategy?.setPlaybackRate`), and emit `ratechange`.
There is no validation and no throwing path. -/
def Player.setPlaybackRate (p : PlayerModel) (rate : ℚ) :
    PlayerModel × List PlayerEvent :=
  let r := PlaybackRate rate
  ({ p with playbackRate := r, strategyRate := p.strategyRate.map (fun _ => r) },
    [.ratechange r])

/-- `Player.dispose` (src/core/Player.ts lines 381–402): an early return
when already disposed; otherwise cleanup (whose last step is
`_stateManager.reset()`), then `_stateManager.dispose()`, then one
`dispose` event.  The constructor-registered `onChange` listener re-emits
every state-manager transition as a `statechange` player event. -/
def Player.dispose (p : PlayerModel) : PlayerModel × List PlayerEvent :=
  if p.sm.state = .disposed then (p, [])
  else
    let r1 := p.sm.reset
    let r2 := r1.sm.smDispose
    ({ p with sm := r2.sm, strategyRate := none },
      ((r1.fired ++ r2.fired).map
        (fun e => PlayerEvent.statechange e.src e.dst)) ++ [.disposeEvent])

/-- Re-emitted `statechange` events are never counted as `dispose`. -/
theorem count_disposeEvent_map_statechange (l : List StateChangeEvent) :
    (l.map (fun e => PlayerEvent.statechange e.src e.dst)).count
      PlayerEvent.disposeEvent = 0 := by
  rw [List.count_eq_zero]
  intro hmem
  obtain ⟨e, -, he⟩ := List.mem_map.mp hmem
  exact PlayerEvent.noConfusion he

/-- Reset-then-dispose always lands in the terminal `disposed` state. -/
theorem reset_smDispose_state (s : StateManagerState)
    (h : s.state ≠ .disposed) :
    ((s.reset).sm.smDispose).sm.state = .disposed := by
  cases hs : s.state <;>
    simp_all [StateManagerState.reset, StateManagerState.smDispose,
      StateManagerState.transition, VALID_TRANSITIONS]

/-! ## Claim C9 -/

/-- **C9.** `Player.dispose` is idempotent: from a non-disposed player
the first call lands in the terminal `disposed` state and emits exactly
one `dispose` event; a call on a disposed player returns without error,
emits nothing and changes nothing — in particular a second `dispose`
directly after the first is a no-op. -/
theorem player_dispose_idempotent (p : PlayerModel) :
    (p.sm.state ≠ .disposed →
      (Player.dispose p).1.sm.state = .disposed ∧
      ((Player.dispose p).2.count PlayerEvent.disposeEvent = 1)) ∧
    (p.sm.state = .disposed → Player.dispose p = (p, [])) ∧
    (Player.dispose (Player.dispose p).1 = ((Player.dispose p).1, [])) := by
  have hterm : ∀ q : PlayerModel, (Player.dispose q).1.sm.state = .disposed := by
    intro q
    by_cases hq : q.sm.state = .disposed
    · simp [Player.dispose, hq]
    · simpa [Player.dispose, hq] using reset_smDispose_state q.sm hq
  refine ⟨fun h => ⟨hterm p, ?_⟩, fun h => by simp [Player.dispose, h], ?_⟩
  · simp [Player.dispose, h, List.count_append,
      count_disposeEvent_map_statechange]
  · have h1 := hterm p
    generalize hq : (Player.dispose p).1 = q at h1 ⊢
    simp [Player.dispose, h1]

/-- Witness for C9: a freshly loaded player (state `ready`, one state
listener, a strategy at rate 1). -/
theorem player_dispose_idempotent_witness :
    (Player.dispose ⟨⟨.ready, [0]⟩, 1, some 1⟩).1.sm.state = .disposed ∧
    ((Player.dispose ⟨⟨.ready, [0]⟩, 1, some 1⟩).2.count
      PlayerEvent.disposeEvent = 1) ∧
    (Player.dispose (Player.dispose ⟨⟨.ready, [0]⟩, 1, some 1⟩).1 =
      ((Player.dispose ⟨⟨.ready, [0]⟩, 1, some 1⟩).1, [])) := by
  have h := player_dispose_idempotent ⟨⟨.ready, [0]⟩, 1, some 1⟩
  obtain ⟨h1, -, h3⟩ := h
  obtain ⟨ha, hb⟩ := h1 (by decide)
  exact ⟨ha, hb, h3⟩

/-! ## Claim C10 -/

/-- **C10.** `Player.setPlaybackRate` performs no range validation: for
every rate `r` — negative values included — the branded constructor
passes `r` through unchecked, the player stores `r`, forwards it to the
active strategy exactly when one exists, and emits one `ratechange`
event carrying `r`; the function is total, so no argument throws. -/
theorem setPlaybackRate_no_validation (p : PlayerModel) (r : ℚ) :
    PlaybackRate r = r ∧
    (Player.setPlaybackRate p r).1.playbackRate = r ∧
    (Player.setPlaybackRate p r).2 = [.ratechange r] ∧
    (p.strategyRate = none →
      (Player.setPlaybackRate p r).1.strategyRate = none) ∧
    (∀ x, p.strategyRate = some x →
      (Player.setPlaybackRate p r).1.strategyRate = some r) := by
  refine ⟨rfl, rfl, rfl, fun h => ?_, fun x h => ?_⟩ <;>
    simp [Player.setPlaybackRate, h, PlaybackRate]

/-- Witness for C10: the negative rate `-2` is stored and forwarded
verbatim by a player whose strategy currently runs at rate 1. -/
theorem setPlaybackRate_no_validation_witness :
    PlaybackRate (-2) = -2 ∧
    (Player.setPlaybackRate ⟨⟨.playing, [0]⟩, 1, some 1⟩ (-2)).1.playbackRate
      = -2 ∧
    (Player.setPlaybackRate ⟨⟨.playing, [0]⟩, 1, some 1⟩ (-2)).1.strategyRate
      = some (-2) := by
  have h := setPlaybackRate_no_validation ⟨⟨.playing, [0]⟩, 1, some 1⟩ (-2)
  exact ⟨h.1, h.2.1, h.2.2.2.2 1 rfl⟩

/-! ## AudioGraph signal chain (src/audio/AudioGraph.ts)

Web-Audio nodes are modelled by `GraphNode`; the set of current
`connect` edges by a `Finset`.  `AudioNode.connect` on an existing pair
is idempotent and `AudioNode.disconnect()` removes every outgoing edge
of the node, which `connectNodes` / `disconnectNode` reproduce. -/

/-- The nodes owned by an `AudioGraph`: the input gain, the biquad
filter bank (by index), the analyser, and the output gain. -/
inductive GraphNode where
  | input
  | eqFilter (i : Nat)
  | analyserNode
  | output
  deriving DecidableEq, Repr

/-- `BiquadFilterType` values used by the bank. -/
inductive FilterKind where
  | lowshelf | peaking | highshelf
  deriving DecidableEq, Repr

/-- One `EQBand` descriptor `{frequency, gain, Q, type}`; the biquad
node of a band mirrors exactly these values. -/
structure EQBand where
  frequency : ℚ
  gain : ℚ
  q : ℚ
  kind : FilterKind
  deriving DecidableEq, Repr

/-- `DEFAULT_EQ_BANDS` (10 bands, 32 Hz – 16 kHz). -/
def DEFAULT_EQ_BANDS : List EQBand :=
  [⟨32, 0, 1, .lowshelf⟩, ⟨64, 0, 1, .peaking⟩, ⟨125, 0, 1, .peaking⟩,
   ⟨250, 0, 1, .peaking⟩, ⟨500, 0, 1, .peaking⟩, ⟨1000, 0, 1, .peaking⟩,
   ⟨2000, 0, 1, .peaking⟩, ⟨4000, 0, 1, .peaking⟩, ⟨8000, 0, 1, .peaking⟩,
   ⟨16000, 0, 1, .highshelf⟩]

/-- `a.connect(b)`: add the edge (idempotently). -/
def connectNodes (c : Finset (GraphNode × GraphNode)) (a b : GraphNode) :
    Finset (GraphNode × GraphNode) := insert (a, b) c

/-- `a.disconnect()`: drop every outgoing edge of `a`. -/
def disconnectNode (c : Finset (GraphNode × GraphNode)) (a : GraphNode) :
    Finset (GraphNode × GraphNode) := c.filter (fun e => e.1 ≠ a)

/-- The mutable fields of an `AudioGraph`: `_eqEnabled`, `_bands` (the
filter nodes mirror their values; one filter per band), and the current
connection topology. -/
structure AudioGraphState where
  eqEnabled : Bool
  bands : List EQBand
  connections : Finset (GraphNode × GraphNode)
  deriving DecidableEq

/-- The edges `connectChain` adds for `n` filters: with EQ enabled and a
non-empty bank, input → filter 0 → … → filter (n−1) → analyser; in
bypass, input → analyser; always analyser → output. -/
def chainEdges (n : Nat) (enabled : Bool) :
    Finset (GraphNode × GraphNode) :=
  let c2 :=
    if enabled ∧ 0 < n then
      let ca := connectNodes ∅ .input (.eqFilter 0)
      let cb := (List.range (n - 1)).foldl
        (fun c i => connectNodes c (.eqFilter i) (.eqFilter (i + 1))) ca
      connectNodes cb (.eqFilter (n - 1)) .analyserNode
    else connectNodes ∅ .input .analyserNode
  connectNodes c2 .analyserNode .output

/-- `AudioGraph.connectChain` (lines 69–88): disconnect the input gain
and every filter, then re-link the enabled chain (or the bypass edge),
then re-connect analyser → output. -/
def connectChain (g : AudioGraphState) : AudioGraphState :=
  let n := g.bands.length
  let c0 := disconnectNode g.connections .input
  let c1 := (List.range n).foldl
    (fun c i => disconnectNode c (.eqFilter i)) c0
  let c2 :=
    if g.eqEnabled ∧ 0 < n then
      let ca := connectNodes c1 .input (.eqFilter 0)
      let cb := (List.range (n - 1)).foldl
        (fun c i => connectNodes c (.eqFilter i) (.eqFilter (i + 1))) ca
      connectNodes cb (.eqFilter (n - 1)) .analyserNode
    else connectNodes c1 .input .analyserNode
  let c3 := connectNodes c2 .analyserNode .output
  { g with connections := c3 }

/-- `AudioGraph.setEQEnabled` (lines 111–116): no-op when unchanged,
else flip the flag and rebuild the whole topology. -/
def setEQEnabled (g : AudioGraphState) (enabled : Bool) : AudioGraphState :=
  if g.eqEnabled = enabled then g
  else connectChain { g with eqEnabled := enabled }

/-- Membership in the filter-disconnect fold. -/
theorem mem_foldl_disconnect (l : List Nat)
    (c : Finset (GraphNode × GraphNode)) (e : GraphNode × GraphNode) :
    e ∈ l.foldl
        (fun acc i => acc.filter (fun x => x.1 ≠ GraphNode.eqFilter i)) c ↔
      e ∈ c ∧ ∀ i ∈ l, e.1 ≠ .eqFilter i := by
  induction l generalizing c with
  | nil => simp
  | cons a l ih =>
    rw [List.foldl_cons, ih]
    simp only [Finset.mem_filter, List.forall_mem_cons]
    tauto

/-- Membership in the filter-to-filter connect fold. -/
theorem mem_foldl_insertChain (l : List Nat)
    (c : Finset (GraphNode × GraphNode)) (e : GraphNode × GraphNode) :
    e ∈ l.foldl
        (fun acc i =>
          insert ((GraphNode.eqFilter i, GraphNode.eqFilter (i + 1)) :
            GraphNode × GraphNode) acc) c ↔
      e ∈ c ∨ ∃ i ∈ l, e = (.eqFilter i, .eqFilter (i + 1)) := by
  induction l generalizing c with
  | nil => simp
  | cons a l ih =>
    rw [List.foldl_cons, ih]
    simp only [Finset.mem_insert, List.exists_mem_cons_iff]
    tauto

/-- Membership in the canonical chain topology. -/
theorem mem_chainEdges (n : Nat) (b : Bool) (e : GraphNode × GraphNode) :
    e ∈ chainEdges n b ↔
      (e = (.analyserNode, .output) ∨
       ((b = true ∧ 0 < n) ∧
         (e = (.input, .eqFilter 0) ∨
          (∃ i, i < n - 1 ∧ e = (.eqFilter i, .eqFilter (i + 1))) ∨
          e = (.eqFilter (n - 1), .analyserNode))) ∨
       (¬(b = true ∧ 0 < n) ∧ e = (.input, .analyserNode))) := by
  unfold chainEdges
  simp only [connectNodes]
  by_cases hb : b = true ∧ 0 < n
  · rw [if_pos hb]
    simp only [Finset.mem_insert, mem_foldl_insertChain,
      Finset.not_mem_empty, List.mem_range, hb.1, hb.2, eq_self_iff_true,
      true_and, and_true, not_true, false_and, or_false, false_or]
    itauto
  · rw [if_neg hb]
    simp only [Finset.mem_insert, Finset.not_mem_empty]
    tauto

/-- Membership after `connectChain`: an edge either survived the full
disconnect pass (its source is neither the input gain nor a filter), or
is one of the canonical chain edges. -/
theorem mem_connectChain (g : AudioGraphState) (e : GraphNode × GraphNode) :
    e ∈ (connectChain g).connections ↔
      ((e ∈ g.connections ∧ e.1 ≠ .input ∧
         ∀ i < g.bands.length, e.1 ≠ .eqFilter i) ∨
       e ∈ chainEdges g.bands.length g.eqEnabled) := by
  rw [mem_chainEdges]
  unfold connectChain
  simp only [connectNodes, disconnectNode]
  by_cases hb : g.eqEnabled = true ∧ 0 < g.bands.length
  · rw [if_pos hb]
    simp only [Finset.mem_insert, mem_foldl_insertChain,
      mem_foldl_disconnect, Finset.mem_filter, List.mem_range, hb.1, hb.2,
      eq_self_iff_true, true_and, and_true, not_true, false_and, or_false,
      false_or]
    itauto
  · rw [if_neg hb]
    simp only [Finset.mem_insert, mem_foldl_disconnect, Finset.mem_filter,
      List.mem_range]
    tauto

/-- A canonical chain edge whose source is neither the input gain nor a
filter of the bank is the analyser → output edge. -/
theorem chainEdges_survivor (n : Nat) (b : Bool)
    (e : GraphNode × GraphNode) (he : e ∈ chainEdges n b)
    (h1 : e.1 ≠ .input) (h2 : ∀ i < n, e.1 ≠ .eqFilter i) :
    e = (.analyserNode, .output) := by
  rw [mem_chainEdges] at he
  rcases he with he | ⟨⟨-, hn⟩, he | ⟨i, hi, he⟩ | he⟩ | ⟨-, he⟩
  · exact he
  · subst he
    exact absurd rfl h1
  · subst he
    exact absurd rfl (h2 i (by omega))
  · subst he
    exact absurd rfl (h2 (n - 1) (by omega))
  · subst he
    exact absurd rfl h1

/-- The analyser → output edge belongs to every canonical topology. -/
theorem anOut_mem_chainEdges (n : Nat) (b : Bool) :
    ((.analyserNode, .output) : GraphNode × GraphNode) ∈ chainEdges n b :=
  (mem_chainEdges n b _).mpr (Or.inl rfl)

/-- Field-wise extensionality for `AudioGraphState`. -/
theorem AudioGraphState.extEq (a b : AudioGraphState)
    (h1 : a.eqEnabled = b.eqEnabled) (h2 : a.bands = b.bands)
    (h3 : a.connections = b.connections) : a = b := by
  cases a; cases b; simp_all

/-- Rebuilding over a canonical topology yields the canonical topology
of the new flag: the full disconnect pass leaves only analyser → output,
which the rebuild re-adds. -/
theorem connectChain_over_canonical (en newEn : Bool) (bs : List EQBand) :
    connectChain ⟨newEn, bs, chainEdges bs.length en⟩ =
      ⟨newEn, bs, chainEdges bs.length newEn⟩ := by
  refine AudioGraphState.extEq _ _ rfl rfl (Finset.ext fun e => ?_)
  rw [mem_connectChain]
  constructor
  · rintro (⟨hmem, h1, h2⟩ | hmem)
    · rw [chainEdges_survivor bs.length en e hmem h1 h2]
      exact anOut_mem_chainEdges _ _
    · exact hmem
  · exact Or.inr

/-! ## Claim C8 -/

/-- **C8.** Enabling EQ bypass and then disabling it restores the signal
chain exactly: starting from the canonical enabled topology (input into
filter 0, each filter into the next, the last filter into the
analyser/output path), `setEQEnabled false` followed by
`setEQEnabled true` returns the identical graph state — the same chain
edges with no stale bypass connection, and every band's frequency, gain
and Q untouched. -/
theorem eq_bypass_roundTrip (g : AudioGraphState)
    (hen : g.eqEnabled = true)
    (hwf : g.connections = chainEdges g.bands.length true) :
    setEQEnabled (setEQEnabled g false) true = g := by
  obtain ⟨en, bs, conns⟩ := g
  simp only at hen hwf
  subst hen
  subst hwf
  have h1 : setEQEnabled ⟨true, bs, chainEdges bs.length true⟩ false =
      ⟨false, bs, chainEdges bs.length false⟩ := by
    rw [setEQEnabled, if_neg (by simp)]
    exact connectChain_over_canonical true false bs
  have h2 : setEQEnabled ⟨false, bs, chainEdges bs.length false⟩ true =
      ⟨true, bs, chainEdges bs.length true⟩ := by
    rw [setEQEnabled, if_neg (by simp)]
    exact connectChain_over_canonical false true bs
  rw [h1, h2]

/-- Witness for C8: the default 10-band graph as the constructor builds
it; one bypass round trip returns the identical state. -/
theorem eq_bypass_roundTrip_witness :
    setEQEnabled
        (setEQEnabled ⟨true, DEFAULT_EQ_BANDS, chainEdges 10 true⟩ false)
        true =
      ⟨true, DEFAULT_EQ_BANDS, chainEdges 10 true⟩ :=
  eq_bypass_roundTrip ⟨true, DEFAULT_EQ_BANDS, chainEdges 10 true⟩ rfl rfl

end Lyra
